import Mathlib

/-!
# BlogFlow AI — verification of the orchestration core

A shallow embedding of the blog-generation pipeline: the shared `MemoryBank`,
the feedback parser and review logic of `EditorAgent` (src/agents/editor.py),
the `ResearcherAgent` fallback chain (src/agents/researcher.py), the
`WriterAgent` draft/revise logic (src/agents/writer.py), the `SEOAgent`
(src/agents/seo_agent.py) and the pipeline controller loop of
`run_blog_pipeline` (src/main.py).

Text is modelled as `List Char` (Python `str`); scores as `ℚ` (Python floats
here only ever hold small decimal fractions produced by parsing or averaging).
Every call to the external text-generation API is modelled as an
`Except (List Char) α` value supplied by an oracle: `.ok` is the generated
text, `.error` the exception message string.
-/

/-- Python whitespace test (`str.strip` / `str.split` ASCII whitespace). -/
def isSpaceCh (c : Char) : Bool :=
  c = ' ' || c = '\t' || c = '\n' || c = '\r' || c = '\x0b' || c = '\x0c'

/-- Does `l` start with the pattern `pat`? (Python `str.startswith`). -/
def startsWithL : List Char → List Char → Bool
  | [], _ => true
  | _ :: _, [] => false
  | p :: ps, c :: cs => p = c && startsWithL ps cs

/-- Strip leading whitespace. -/
def lstripL (l : List Char) : List Char := l.dropWhile isSpaceCh

/-- Python `str.strip()`: drop whitespace from both ends. -/
def pyStrip (l : List Char) : List Char :=
  ((l.dropWhile isSpaceCh).reverse.dropWhile isSpaceCh).reverse

/-- Split a text into lines at `'\n'` (Python `str.split('\n')`). -/
def splitLines : List Char → List (List Char)
  | [] => [[]]
  | c :: cs =>
    if c = '\n' then [] :: splitLines cs
    else
      match splitLines cs with
      | [] => [[c]]
      | l :: ls => (c :: l) :: ls

/-- Abbreviation for string literals as char lists. -/
def S (s : String) : List Char := s.toList

/-- Python `line.replace('SCORE:', '')`: remove every occurrence of the
literal `SCORE:`, scanning left to right (src/agents/editor.py:152). -/
def removeScoreTag : List Char → List Char
  | 'S' :: 'C' :: 'O' :: 'R' :: 'E' :: ':' :: rest => removeScoreTag rest
  | c :: rest => c :: removeScoreTag rest
  | [] => []

/-- The maximal match of the regex `\d+\.?\d*` starting at the head of `l`
(which must start with a digit): digits, an optional dot, more digits. -/
def takeNumTok (l : List Char) : List Char :=
  let ds := l.takeWhile Char.isDigit
  match l.drop ds.length with
  | '.' :: rest => ds ++ '.' :: rest.takeWhile Char.isDigit
  | _ => ds

/-- `re.search(r"\d+\.?\d*", l)`: the first (leftmost, maximal) match of the
numeric-token regex in `l`, if any (src/agents/editor.py:155). -/
def firstNumTok : List Char → Option (List Char)
  | [] => none
  | c :: cs => if c.isDigit then some (takeNumTok (c :: cs)) else firstNumTok cs

/-- Value of a digit character. -/
def digitVal (c : Char) : ℕ := c.toNat - '0'.toNat

/-- Natural number denoted by a digit string. -/
def digitsToNat (l : List Char) : ℕ := l.foldl (fun a c => 10 * a + digitVal c) 0

/-- Python `float` on a string matched by `\d+\.?\d*`: integer part plus
fractional digits scaled down. -/
def parseFloatTok (l : List Char) : ℚ :=
  let intPart := l.takeWhile Char.isDigit
  match l.drop intPart.length with
  | '.' :: frac => (digitsToNat intPart : ℚ) + (digitsToNat frac : ℚ) / (10 : ℚ) ^ frac.length
  | _ => (digitsToNat intPart : ℚ)

/-- A structured feedback record (the Python dict built by
`EditorAgent._parse_review`, src/agents/editor.py:137-142; the `iteration`
key is absent until `EditorAgent.review` sets it — modelled as `0`). -/
structure Feedback where
  score : ℚ
  issues : List (List Char)
  suggestions : List (List Char)
  strengths : List (List Char)
  iteration : ℕ
deriving Repr, DecidableEq

/-- The default record the parser starts from (score 5.0, empty sections). -/
def defaultFeedback : Feedback :=
  { score := 5, issues := [], suggestions := [], strengths := [], iteration := 0 }

/-- The section currently being filled by the parser (`current_section`). -/
inductive FbSection
  | issues
  | suggestions
  | strengths
deriving Repr, DecidableEq

/-- Append an item to the currently open section of a feedback record. -/
def appendItem (fb : Feedback) (sec : FbSection) (item : List Char) : Feedback :=
  match sec with
  | .issues => { fb with issues := fb.issues ++ [item] }
  | .suggestions => { fb with suggestions := fb.suggestions ++ [item] }
  | .strengths => { fb with strengths := fb.strengths ++ [item] }

/-- One iteration of the parser loop of `EditorAgent._parse_review`
(src/agents/editor.py:147-169): strip the line, then the `if/elif` chain on
`SCORE:`, the three section headers, and dash-prefixed items. -/
def parseReviewStep (st : Feedback × Option FbSection) (rawLine : List Char) :
    Feedback × Option FbSection :=
  let fb := st.1
  let cur := st.2
  let line := pyStrip rawLine
  if startsWithL (S "SCORE:") line then
    let score_text := pyStrip (removeScoreTag line)
    match firstNumTok score_text with
    | some tok => ({ fb with score := parseFloatTok tok }, cur)
    | none => (fb, cur)
  else if line = S "ISSUES:" then (fb, some .issues)
  else if line = S "SUGGESTIONS:" then (fb, some .suggestions)
  else if line = S "STRENGTHS:" then (fb, some .strengths)
  else if startsWithL (S "- ") line && cur.isSome then
    let item := pyStrip (line.drop 2)
    if item = [] then (fb, cur)
    else
      match cur with
      | some sec => (appendItem fb sec item, some sec)
      | none => (fb, cur)
  else (fb, cur)

namespace EditorAgent

/-- `EditorAgent._parse_review` (src/agents/editor.py:134-171): fold the
line-oriented parser over the lines of the review text, starting from the
default record and no open section. -/
def parse_review (review_text : List Char) : Feedback :=
  ((splitLines review_text).foldl parseReviewStep (defaultFeedback, none)).1

end EditorAgent

/-! ## Data model: ResearchBrief, SEO data, MemoryBank (src/memory.py) -/

/-- A research brief, the dict built by the Researcher agent (§3 of the
design; src/agents/researcher.py). An absent brief (the initial empty dict
in `MemoryBank.research_data`) is modelled as `Option.none` at the store. -/
structure ResearchBrief where
  topic : List Char
  findings : List Char
  key_points : List (List Char)
  sources : List (List Char)
  timestamp : List Char
deriving Repr, DecidableEq

/-- SEO data stored by the SEO agent (src/agents/seo_agent.py:32-36). -/
structure SeoData where
  keywords : List (List Char)
  topic : List Char
  optimized : Bool
deriving Repr, DecidableEq

/-- The shared memory bank (src/memory.py:6-61). The initially-empty Python
dicts `research_data` and `seo_data` are modelled as `Option`. -/
structure MemoryBank where
  style_guide : List Char
  research_data : Option ResearchBrief
  drafts : List (List Char)
  seo_data : Option SeoData
  editor_feedback : List Feedback
deriving Repr, DecidableEq

namespace MemoryBank

/-- `MemoryBank.__init__` (src/memory.py:9-14). -/
def init (style_guide : List Char) : MemoryBank :=
  { style_guide := style_guide, research_data := none, drafts := [],
    seo_data := none, editor_feedback := [] }

/-- `store_research` (src/memory.py:16-18). -/
def store_research (m : MemoryBank) (data : ResearchBrief) : MemoryBank :=
  { m with research_data := some data }

/-- `get_research` (src/memory.py:20-22). -/
def get_research (m : MemoryBank) : Option ResearchBrief := m.research_data

/-- `add_draft` (src/memory.py:24-26). -/
def add_draft (m : MemoryBank) (draft : List Char) : MemoryBank :=
  { m with drafts := m.drafts ++ [draft] }

/-- `get_latest_draft` (src/memory.py:28-30): `drafts[-1] if drafts else ""`. -/
def get_latest_draft (m : MemoryBank) : List Char := m.drafts.getLast?.getD []

/-- `get_all_drafts` (src/memory.py:32-34). -/
def get_all_drafts (m : MemoryBank) : List (List Char) := m.drafts

/-- `store_seo_data` (src/memory.py:36-38). -/
def store_seo_data (m : MemoryBank) (data : SeoData) : MemoryBank :=
  { m with seo_data := some data }

/-- `get_seo_data` (src/memory.py:40-42). -/
def get_seo_data (m : MemoryBank) : Option SeoData := m.seo_data

/-- `add_editor_feedback` (src/memory.py:44-46). -/
def add_editor_feedback (m : MemoryBank) (feedback : Feedback) : MemoryBank :=
  { m with editor_feedback := m.editor_feedback ++ [feedback] }

/-- `get_latest_feedback` (src/memory.py:48-50): last record, or the empty
dict (modelled `none`) when no feedback exists. -/
def get_latest_feedback (m : MemoryBank) : Option Feedback := m.editor_feedback.getLast?

/-- `get_feedback_count` (src/memory.py:52-54). -/
def get_feedback_count (m : MemoryBank) : ℕ := m.editor_feedback.length

end MemoryBank

/-! ## Configuration (src/config.py) -/

/-- `MAX_EDITOR_ITERATIONS` (src/config.py:14). -/
def MAX_EDITOR_ITERATIONS : ℕ := 3

/-- `QUALITY_THRESHOLD` (src/config.py:15). -/
def QUALITY_THRESHOLD : ℚ := 7

/-- `DEFAULT_STYLE_GUIDE` (src/config.py:22-31). -/
def DEFAULT_STYLE_GUIDE : List Char :=
  S "\nWriting Style Guidelines:\n- Tone: Professional yet conversational\n- Target Audience: Tech-savvy professionals and content creators\n- Length: 1200-1800 words\n- Structure: Introduction, 3-5 main sections, Conclusion\n- Use headers (H2, H3) for organization\n- Include bullet points for key takeaways\n- Cite sources when mentioning statistics or research\n"

/-! ## Quality scorer (spec-modelled: `utils.calculate_quality_score`) -/

/-- Number of whitespace-separated words, as in Python `len(text.split())`;
the Boolean tracks whether the scan is inside a word. -/
def countWordsAux : List Char → Bool → ℕ
  | [], _ => 0
  | c :: cs, inWord =>
    if isSpaceCh c then countWordsAux cs false
    else (if inWord then 0 else 1) + countWordsAux cs true

/-- Word count of a text. -/
def wordCount (t : List Char) : ℕ := countWordsAux t false

/-- Does some line of the text start with a `##` (this also covers `###`)? -/
def hasHeaderLine (t : List Char) : Bool :=
  (splitLines t).any (fun l => startsWithL (S "##") l)

/-- Count maximal runs of nonempty lines; the Boolean tracks whether the
scan is inside such a run. -/
def countParaAux : List (List Char) → Bool → ℕ
  | [], _ => 0
  | l :: ls, inPara =>
    if l.isEmpty then countParaAux ls false
    else (if inPara then 0 else 1) + countParaAux ls true

/-- Number of paragraphs: blank-line-separated blocks of the text. -/
def paragraphCount (t : List Char) : ℕ := countParaAux (splitLines t) false

/-- Does some line of the text start with a `- ` bullet marker? -/
def hasBulletLine (t : List Char) : Bool :=
  (splitLines t).any (fun l => startsWithL (S "- ") l)

/-- Modelled from the spec: `calculate_quality_score` lives in `utils.py`,
which is not among the sources (src/agents/editor.py:7 imports it). §4.1:
a pure total function of the text over word count, structural markers
(header presence), paragraph count and presence of bullet lists, returning
a float in [0,10]: a base of 5.0, up to 2.0 for length, 1.5 for headers,
1.0 for several paragraphs, 0.5 for bullet lists, capped at 10. -/
def calculate_quality_score (text : List Char) : ℚ :=
  min 10
    (5 + (if 1200 ≤ wordCount text then 2 else if 600 ≤ wordCount text then 1 else 0)
       + (if hasHeaderLine text then 3/2 else 0)
       + (if 3 ≤ paragraphCount text then 1 else 0)
       + (if hasBulletLine text then 1/2 else 0))

/-- Join lines with a single separating newline. -/
def joinLines : List (List Char) → List Char
  | [] => []
  | [l] => l
  | l :: ls => l ++ '\n' :: joinLines ls

/-- Modelled from the spec (§4.1, §8.8): strip all structure from a draft —
drop every `##`/`###` header line and every blank line (the paragraph
breaks), leaving the remaining lines as one single block. -/
def stripStructure (t : List Char) : List Char :=
  joinLines ((splitLines t).filter (fun l => !startsWithL (S "##") l && !l.isEmpty))

/-! ## Editor agent: detailed review and the approval decision
(src/agents/editor.py) -/

namespace EditorAgent

/-- `EditorAgent._detailed_review` (src/agents/editor.py:61-132): ask the
generator for a review and parse it; if the generation call raises, return
the synthesized failure record with score 6.0 (lines 125-132). -/
def detailed_review (gen : Except (List Char) (List Char)) : Feedback :=
  match gen with
  | .ok review_text => parse_review review_text
  | .error e =>
    { score := 6, issues := [S "Review error: " ++ e],
      suggestions := [S "Manual review recommended"], strengths := [], iteration := 0 }

/-- `EditorAgent.review` (src/agents/editor.py:20-59), parametrized by the
configuration (`maxIter`, `threshold`), the imported `calculate_quality_score`
(`qscore`) and the outcome of the generation call (`gen`): average the
heuristic and LLM scores, store the feedback, approve when the threshold is
met, and force approval at the iteration cap (lines 55-57). -/
def review (maxIter : ℕ) (threshold : ℚ) (qscore : List Char → ℚ)
    (gen : Except (List Char) (List Char)) (draft : List Char) (memory : MemoryBank) :
    Bool × Feedback × MemoryBank :=
  let iteration := memory.get_feedback_count + 1
  let basic_score := qscore draft
  let detailed_feedback := detailed_review gen
  let ai_score := detailed_feedback.score
  let final_score := (basic_score + ai_score) / 2
  let fb := { detailed_feedback with score := final_score, iteration := iteration }
  let memory := memory.add_editor_feedback fb
  let approved := decide (threshold ≤ final_score)
  let approved := if !approved && decide (maxIter ≤ iteration) then true else approved
  (approved, fb, memory)

end EditorAgent

/-! ## Writer agent (src/agents/writer.py) -/

namespace WriterAgent

/-- `WriterAgent._create_initial_draft` (src/agents/writer.py:33-87): return
the generated draft, or on failure the placeholder draft containing the
error (line 87). -/
def create_initial_draft (research : Option ResearchBrief)
    (gen : Except (List Char) (List Char)) : List Char :=
  let topic := match research with
    | some r => r.topic
    | none => S "Unknown Topic"
  match gen with
  | .ok draft => draft
  | .error e => S "# " ++ topic ++ S "\n\n[Draft generation failed: " ++ e ++ S "]"

/-- `WriterAgent._revise_draft` (src/agents/writer.py:89-145): return the
revised text, or on failure the unmodified latest draft (line 145). -/
def revise_draft (memory : MemoryBank) (gen : Except (List Char) (List Char)) : List Char :=
  let current_draft := memory.get_latest_draft
  match gen with
  | .ok revised_draft => revised_draft
  | .error _ => current_draft

/-- `WriterAgent.write_draft` (src/agents/writer.py:19-31): dispatch on
whether editor feedback was passed (a revision) or not (the initial draft). -/
def write_draft (memory : MemoryBank) (editor_feedback : Option Feedback)
    (gen : Except (List Char) (List Char)) : List Char :=
  match editor_feedback with
  | some _ => revise_draft memory gen
  | none => create_initial_draft memory.get_research gen

end WriterAgent

/-! ## Researcher agent (src/agents/researcher.py) -/

namespace ResearcherAgent

/-- `ResearcherAgent._fallback_research` (src/agents/researcher.py:100-142),
parametrized by the imported `format_research_brief` (`fmt`, from the absent
`utils.py`): try the plain (tool-free) generation call; on failure return the
literal placeholder brief of lines 136-142. -/
def fallback_research (fmt : List Char → List Char → List (List Char) → ResearchBrief)
    (topic : List Char) (gen : Except (List Char) (List Char)) : ResearchBrief :=
  match gen with
  | .ok findings => fmt topic findings [S "Model Training Data (Pre-2023)"]
  | .error _ =>
    { topic := topic,
      findings := S "Research on " ++ topic ++ S " - please provide manual input",
      key_points := [], sources := [], timestamp := S "2025-11-29" }

/-- `ResearcherAgent.research` (src/agents/researcher.py:21-98), parametrized
by the imported `format_research_brief` (`fmt`) and
`compact_research_context` (`compact`) from the absent `utils.py`. The
grounded generation call yields findings text and extracted sources; on
failure fall back to `_fallback_research` (lines 93-98). Either result is
stored in memory. -/
def research (fmt : List Char → List Char → List (List Char) → ResearchBrief)
    (compact : List (List Char) → List Char) (topic : List Char)
    (genGrounded : Except (List Char) (List Char × List (List Char)))
    (genPlain : Except (List Char) (List Char)) (memory : MemoryBank) :
    ResearchBrief × MemoryBank :=
  match genGrounded with
  | .ok fs =>
    let compacted_findings := compact [fs.1]
    let research_brief := fmt topic compacted_findings fs.2
    (research_brief, memory.store_research research_brief)
  | .error _ =>
    let fallback_brief := fallback_research fmt topic genPlain
    (fallback_brief, memory.store_research fallback_brief)

end ResearcherAgent

/-! ## SEO agent (src/agents/seo_agent.py) -/

/-- Split a text at every occurrence of a separator character
(Python `str.split(sep)` for a one-character separator). -/
def splitOnCh (sep : Char) : List Char → List (List Char)
  | [] => [[]]
  | c :: cs =>
    if c = sep then [] :: splitOnCh sep cs
    else
      match splitOnCh sep cs with
      | [] => [[c]]
      | l :: ls => (c :: l) :: ls

/-- ASCII lowercase of one character (Python `str.lower` on ASCII input). -/
def lowerCh (c : Char) : Char :=
  if 'A' ≤ c ∧ c ≤ 'Z' then Char.ofNat (c.toNat + 32) else c

/-- Python `str.lower` over the text. -/
def lowerStr (t : List Char) : List Char := t.map lowerCh

/-- Remove every occurrence of the literal `TITLE:` (Python
`line.replace("TITLE:", "")`, src/agents/seo_agent.py:163). -/
def removeTitleTag : List Char → List Char
  | 'T' :: 'I' :: 'T' :: 'L' :: 'E' :: ':' :: rest => removeTitleTag rest
  | c :: rest => c :: removeTitleTag rest
  | [] => []

/-- Remove every occurrence of the literal `DESCRIPTION:` (Python
`line.replace("DESCRIPTION:", "")`, src/agents/seo_agent.py:165). -/
def removeDescTag : List Char → List Char
  | 'D' :: 'E' :: 'S' :: 'C' :: 'R' :: 'I' :: 'P' :: 'T' :: 'I' :: 'O' :: 'N' :: ':' :: rest =>
    removeDescTag rest
  | c :: rest => c :: removeDescTag rest
  | [] => []

/-- Meta tags derived at final assembly (src/agents/seo_agent.py:126-174). -/
structure MetaTags where
  title : List Char
  description : List Char
deriving Repr, DecidableEq

namespace SEOAgent

/-- `SEOAgent._identify_keywords` (src/agents/seo_agent.py:44-80): split the
generated comma-separated list, strip each keyword, keep at most 10; on
failure fall back to `[topic.lower(), "blog", "guide", "tutorial"]`. -/
def identify_keywords (topic _draft : List Char)
    (gen : Except (List Char) (List Char)) : List (List Char) :=
  match gen with
  | .ok text =>
    let keywords_text := pyStrip text
    ((splitOnCh ',' keywords_text).map pyStrip).take 10
  | .error _ => [lowerStr topic, S "blog", S "guide", S "tutorial"]

/-- `SEOAgent._optimize_content` (src/agents/seo_agent.py:82-124): the
optimized text, or the original draft unchanged on failure (line 124). -/
def optimize_content (draft : List Char) (gen : Except (List Char) (List Char)) : List Char :=
  match gen with
  | .ok optimized => optimized
  | .error _ => draft

/-- `SEOAgent.optimize` (src/agents/seo_agent.py:19-42): identify keywords,
optimize the content, store the SEO record, return the optimized draft. -/
def optimize (draft topic : List Char) (memory : MemoryBank)
    (genKeywords genContent : Except (List Char) (List Char)) :
    List Char × MemoryBank :=
  let keywords := identify_keywords topic draft genKeywords
  let optimized_draft := optimize_content draft genContent
  let seo_data : SeoData := { keywords := keywords, topic := topic, optimized := true }
  (optimized_draft, memory.store_seo_data seo_data)

/-- `SEOAgent.generate_meta_tags` (src/agents/seo_agent.py:126-174): scan
the generated lines for `TITLE:` and `DESCRIPTION:` (unstripped lines,
per the source); on failure fall back to the topic-derived tags. -/
def generate_meta_tags (_draft : List Char) (_keywords : List (List Char))
    (topic : List Char) (gen : Except (List Char) (List Char)) : MetaTags :=
  match gen with
  | .ok result =>
    (splitLines result).foldl
      (fun md line =>
        if startsWithL (S "TITLE:") line then
          { md with title := pyStrip (removeTitleTag line) }
        else if startsWithL (S "DESCRIPTION:") line then
          { md with description := pyStrip (removeDescTag line) }
        else md)
      { title := topic, description := [] }
  | .error _ =>
    { title := topic,
      description := S "Learn about " ++ topic ++ S " in this comprehensive guide." }

end SEOAgent

/-! ## Final assembly and the pipeline controller (src/main.py) -/

/-- Metadata of the published article (src/main.py:136-141). -/
structure ArticleMetadata where
  title : List Char
  date : List Char
  keywords : List (List Char)
  sources : List (List Char)
deriving Repr, DecidableEq

/-- Join pieces with a separating string. -/
def joinSep (sep : List Char) : List (List Char) → List Char
  | [] => []
  | [l] => l
  | l :: ls => l ++ sep ++ joinSep sep ls

/-- Modelled from the spec: `format_output_article` lives in `utils.py`,
which is not among the sources (src/main.py:17 imports it). §6: the
published artifact is a text document with a leading metadata block
(title, date, keywords, sources) followed by the body content. -/
def format_output_article (draft : List Char) (metadata : ArticleMetadata) : List Char :=
  S "---\ntitle: " ++ metadata.title ++
  S "\ndate: " ++ metadata.date ++
  S "\nkeywords: " ++ joinSep (S ", ") metadata.keywords ++
  S "\nsources: " ++ joinSep (S ", ") metadata.sources ++
  S "\n---\n\n" ++ draft

/-- The outcomes of every external generation call a single pipeline run can
make, one field per call site; the review/revise calls are indexed by the
loop iteration (starting at 1). -/
structure GenOracle where
  research_grounded : Except (List Char) (List Char × List (List Char))
  research_plain : Except (List Char) (List Char)
  initial_draft : Except (List Char) (List Char)
  seo_keywords : Except (List Char) (List Char)
  seo_content : Except (List Char) (List Char)
  review_text : ℕ → Except (List Char) (List Char)
  revise_text : ℕ → Except (List Char) (List Char)
  meta_tags : Except (List Char) (List Char)

/-- An oracle in which every generation call fails with message `e`. -/
def allFailOracle (e : List Char) : GenOracle :=
  { research_grounded := .error e, research_plain := .error e, initial_draft := .error e,
    seo_keywords := .error e, seo_content := .error e, review_text := fun _ => .error e,
    revise_text := fun _ => .error e, meta_tags := .error e }

/-- The Review/Revise loop of `run_blog_pipeline` (src/main.py:104-118):
`while not approved and iteration < maxIter`. The loop counter equals
`iteration`; `fuel` is the remaining budget `maxIter - iteration`, so the
encoding is faithful when started at `fuel = maxIter`, `iteration = 0`.
Returns the final memory, the iteration count, and the `approved` flag. -/
def reviewLoop (maxIter : ℕ) (threshold : ℚ) (qscore : List Char → ℚ)
    (genReview genRevise : ℕ → Except (List Char) (List Char)) :
    ℕ → ℕ → MemoryBank → MemoryBank × ℕ × Bool
  | 0, iteration, memory => (memory, iteration, false)
  | fuel + 1, iteration, memory =>
    let iteration := iteration + 1
    let current_draft := memory.get_latest_draft
    let r := EditorAgent.review maxIter threshold qscore (genReview iteration)
      current_draft memory
    if r.1 then (r.2.2, iteration, true)
    else
      let revised_draft := WriterAgent.write_draft r.2.2 (some r.2.1) (genRevise iteration)
      let memory := r.2.2.add_draft revised_draft
      reviewLoop maxIter threshold qscore genReview genRevise fuel iteration memory

/-- Result of one pipeline run. -/
structure RunResult where
  memory : MemoryBank
  research_brief : ResearchBrief
  final_draft : List Char
  final_article : List Char
  approved : Bool
  iterations : ℕ
deriving Repr

/-- `run_blog_pipeline` (src/main.py:55-172), parametrized by the
configuration, the imported helpers from the absent `utils.py`
(`qscore` = `calculate_quality_score`, `fmt` = `format_research_brief`,
`compact` = `compact_research_context`) and the generation oracle:
research, initial draft, SEO optimization, the bounded review loop, and
final assembly of the published article. -/
def run_blog_pipeline (maxIter : ℕ) (threshold : ℚ) (qscore : List Char → ℚ)
    (fmt : List Char → List Char → List (List Char) → ResearchBrief)
    (compact : List (List Char) → List Char) (o : GenOracle)
    (topic : List Char) (style_guide : Option (List Char)) : RunResult :=
  let memory := MemoryBank.init (style_guide.getD DEFAULT_STYLE_GUIDE)
  let rr := ResearcherAgent.research fmt compact topic o.research_grounded
    o.research_plain memory
  let research_brief := rr.1
  let memory := rr.2
  let initial_draft := WriterAgent.write_draft memory none o.initial_draft
  let memory := memory.add_draft initial_draft
  let so := SEOAgent.optimize initial_draft topic memory o.seo_keywords o.seo_content
  let memory := so.2.add_draft so.1
  let lr := reviewLoop maxIter threshold qscore o.review_text o.revise_text maxIter 0 memory
  let memory := lr.1
  let final_draft := memory.get_latest_draft
  let seo_keywords := match memory.get_seo_data with
    | some sd => sd.keywords
    | none => []
  let meta_tags := SEOAgent.generate_meta_tags final_draft seo_keywords topic o.meta_tags
  let metadata : ArticleMetadata :=
    { title := meta_tags.title, date := S "2025-11-29", keywords := seo_keywords,
      sources := research_brief.sources }
  { memory := memory, research_brief := research_brief, final_draft := final_draft,
    final_article := format_output_article final_draft metadata,
    approved := lr.2.2, iterations := lr.2.1 }

/-! ## Helper lemmas -/

/-- A line on which the parser chain matches nothing leaves the state of the
fold unchanged when no section is open. -/
lemma parseReviewStep_inert (fb : Feedback) (l : List Char)
    (h1 : startsWithL (S "SCORE:") (pyStrip l) = false)
    (h2 : pyStrip l ≠ S "ISSUES:") (h3 : pyStrip l ≠ S "SUGGESTIONS:")
    (h4 : pyStrip l ≠ S "STRENGTHS:") :
    parseReviewStep (fb, none) l = (fb, none) := by
  simp [parseReviewStep, h1, h2, h3, h4]

/-- Folding the parser over lines none of which matches any recognized
header leaves the default state unchanged. -/
lemma parse_fold_inert (lines : List (List Char)) (fb : Feedback)
    (h : ∀ l ∈ lines, startsWithL (S "SCORE:") (pyStrip l) = false ∧
      pyStrip l ≠ S "ISSUES:" ∧ pyStrip l ≠ S "SUGGESTIONS:" ∧ pyStrip l ≠ S "STRENGTHS:") :
    lines.foldl parseReviewStep (fb, none) = (fb, none) := by
  induction lines with
  | nil => rfl
  | cons l ls ih =>
    have hl := h l (by simp)
    rw [List.foldl_cons, parseReviewStep_inert fb l hl.1 hl.2.1 hl.2.2.1 hl.2.2.2]
    exact ih fun x hx => h x (by simp [hx])

lemma review_feedback_len (maxIter : ℕ) (threshold : ℚ) (qscore : List Char → ℚ)
    (gen : Except (List Char) (List Char)) (draft : List Char) (memory : MemoryBank) :
    (EditorAgent.review maxIter threshold qscore gen draft memory).2.2.editor_feedback =
      memory.editor_feedback ++
        [(EditorAgent.review maxIter threshold qscore gen draft memory).2.1] := rfl

lemma review_drafts (maxIter : ℕ) (threshold : ℚ) (qscore : List Char → ℚ)
    (gen : Except (List Char) (List Char)) (draft : List Char) (memory : MemoryBank) :
    (EditorAgent.review maxIter threshold qscore gen draft memory).2.2.drafts =
      memory.drafts := rfl

/-- The approval decision of `EditorAgent.review`: approved exactly when the
averaged score reaches the threshold or the iteration counter reaches the
maximum (the forced approval of src/agents/editor.py:55-57). -/
lemma review_approved_iff (maxIter : ℕ) (threshold : ℚ) (qscore : List Char → ℚ)
    (gen : Except (List Char) (List Char)) (draft : List Char) (memory : MemoryBank) :
    (EditorAgent.review maxIter threshold qscore gen draft memory).1 = true ↔
      (threshold ≤ (qscore draft + (EditorAgent.detailed_review gen).score) / 2 ∨
        maxIter ≤ memory.get_feedback_count + 1) := by
  simp only [EditorAgent.review]
  split_ifs with h
  · simp only [Bool.and_eq_true, Bool.not_eq_eq_eq_not, decide_eq_true_eq] at h
    simp [h.2]
  · simp only [Bool.and_eq_true] at h
    by_cases h1 : threshold ≤ (qscore draft + (EditorAgent.detailed_review gen).score) / 2
    · simp [h1]
    · push_neg at h
      simp only [decide_eq_true_eq] at *
      constructor
      · intro hh; exact absurd hh h1
      · intro hh
        rcases hh with hh | hh
        · exact absurd hh h1
        · exfalso
          have := h ?_
          · simp [decide_eq_true_eq] at this; omega
          · simp [h1]

/-- A non-approved review means the iteration counter was still strictly
below the maximum. -/
lemma review_false_lt (maxIter : ℕ) (threshold : ℚ) (qscore : List Char → ℚ)
    (gen : Except (List Char) (List Char)) (draft : List Char) (memory : MemoryBank)
    (h : (EditorAgent.review maxIter threshold qscore gen draft memory).1 = false) :
    memory.editor_feedback.length + 1 < maxIter := by
  by_contra hc
  push_neg at hc
  have h2 := (review_approved_iff maxIter threshold qscore gen draft memory).2 (Or.inr hc)
  rw [h] at h2
  exact absurd h2 (by simp)

lemma reviewLoop_feedback_le (maxIter : ℕ) (threshold : ℚ) (qscore : List Char → ℚ)
    (gR gV : ℕ → Except (List Char) (List Char)) :
    ∀ fuel it memory,
      ((reviewLoop maxIter threshold qscore gR gV fuel it memory).1.editor_feedback).length ≤
        memory.editor_feedback.length + fuel := by
  intro fuel
  induction fuel with
  | zero => intro it m; simp [reviewLoop]
  | succ n ih =>
    intro it m
    rw [reviewLoop]
    split
    · simp [review_feedback_len]
    · refine le_trans (ih _ _) ?_
      simp [MemoryBank.add_draft, review_feedback_len]
      omega

lemma reviewLoop_feedback_mono (maxIter : ℕ) (threshold : ℚ) (qscore : List Char → ℚ)
    (gR gV : ℕ → Except (List Char) (List Char)) :
    ∀ fuel it memory,
      memory.editor_feedback.length ≤
        ((reviewLoop maxIter threshold qscore gR gV fuel it memory).1.editor_feedback).length := by
  intro fuel
  induction fuel with
  | zero => intro it m; simp [reviewLoop]
  | succ n ih =>
    intro it m
    rw [reviewLoop]
    split
    · simp [review_feedback_len]
    · refine le_trans ?_ (ih _ _)
      simp [MemoryBank.add_draft, review_feedback_len]

lemma reviewLoop_feedback_ge (maxIter : ℕ) (threshold : ℚ) (qscore : List Char → ℚ)
    (gR gV : ℕ → Except (List Char) (List Char)) :
    ∀ fuel it memory, 1 ≤ fuel →
      memory.editor_feedback.length + 1 ≤
        ((reviewLoop maxIter threshold qscore gR gV fuel it memory).1.editor_feedback).length := by
  intro fuel
  cases fuel with
  | zero => intro it m h; omega
  | succ n =>
    intro it m _
    rw [reviewLoop]
    split
    · simp [review_feedback_len]
    · refine le_trans ?_ (reviewLoop_feedback_mono maxIter threshold qscore gR gV n _ _)
      simp [MemoryBank.add_draft, review_feedback_len]

/-- Started with an empty feedback history and full budget, the loop always
ends in an approved state: the last possible review is forced-approved. -/
lemma reviewLoop_approved (maxIter : ℕ) (threshold : ℚ) (qscore : List Char → ℚ)
    (gR gV : ℕ → Except (List Char) (List Char)) :
    ∀ fuel it memory, memory.editor_feedback.length = it → maxIter ≤ fuel + it → 1 ≤ fuel →
      (reviewLoop maxIter threshold qscore gR gV fuel it memory).2.2 = true := by
  intro fuel
  induction fuel with
  | zero => intro it m _ _ h3; omega
  | succ n ih =>
    intro it m hlen hfuel _
    rw [reviewLoop]
    split
    · rfl
    · rename_i hfalse
      have hfalse2 : (EditorAgent.review maxIter threshold qscore (gR (it + 1))
          m.get_latest_draft m).1 = false := by
        simpa using hfalse
      have hlt := review_false_lt _ _ _ _ _ _ hfalse2
      refine ih _ _ ?_ ?_ ?_
      · simp [MemoryBank.add_draft, review_feedback_len, hlen]
      · omega
      · omega

/-- The loop only ever appends to the drafts and feedback histories. -/
lemma reviewLoop_append_only (maxIter : ℕ) (threshold : ℚ) (qscore : List Char → ℚ)
    (gR gV : ℕ → Except (List Char) (List Char)) :
    ∀ fuel it memory, ∃ ds fs,
      (reviewLoop maxIter threshold qscore gR gV fuel it memory).1.drafts =
        memory.drafts ++ ds ∧
      (reviewLoop maxIter threshold qscore gR gV fuel it memory).1.editor_feedback =
        memory.editor_feedback ++ fs := by
  intro fuel
  induction fuel with
  | zero => intro it m; exact ⟨[], [], by simp [reviewLoop], by simp [reviewLoop]⟩
  | succ n ih =>
    intro it m
    rw [reviewLoop]
    split
    · exact ⟨[], _, by simp [review_drafts], by rw [review_feedback_len]⟩
    · have key : ∀ m2 : MemoryBank,
          (∃ x, m2.drafts = m.drafts ++ [x]) →
          (∃ y, m2.editor_feedback = m.editor_feedback ++ [y]) →
          ∃ ds fs,
            (reviewLoop maxIter threshold qscore gR gV n (it + 1) m2).1.drafts =
              m.drafts ++ ds ∧
            (reviewLoop maxIter threshold qscore gR gV n (it + 1) m2).1.editor_feedback =
              m.editor_feedback ++ fs := by
        intro m2 hx hy
        obtain ⟨x, hx⟩ := hx
        obtain ⟨y, hy⟩ := hy
        obtain ⟨ds, fs, hd, hf⟩ := ih (it + 1) m2
        exact ⟨x :: ds, y :: fs, by rw [hd, hx]; simp, by rw [hf, hy]; simp⟩
      apply key
      · exact ⟨_, rfl⟩
      · exact ⟨_, rfl⟩

lemma research_preserves_feedback
    (fmt : List Char → List Char → List (List Char) → ResearchBrief)
    (compact : List (List Char) → List Char) (topic : List Char)
    (gG : Except (List Char) (List Char × List (List Char)))
    (gP : Except (List Char) (List Char)) (memory : MemoryBank) :
    (ResearcherAgent.research fmt compact topic gG gP memory).2.editor_feedback =
      memory.editor_feedback := by
  cases gG <;> rfl

/-- The memory state of a run just before the review loop starts (the first
three stages of `run_blog_pipeline`, src/main.py:70-97). -/
def preLoopMemory (fmt : List Char → List Char → List (List Char) → ResearchBrief)
    (compact : List (List Char) → List Char) (o : GenOracle)
    (topic : List Char) (style_guide : Option (List Char)) : MemoryBank :=
  let memory := MemoryBank.init (style_guide.getD DEFAULT_STYLE_GUIDE)
  let rr := ResearcherAgent.research fmt compact topic o.research_grounded
    o.research_plain memory
  let memory := rr.2
  let initial_draft := WriterAgent.write_draft memory none o.initial_draft
  let memory := memory.add_draft initial_draft
  let so := SEOAgent.optimize initial_draft topic memory o.seo_keywords o.seo_content
  so.2.add_draft so.1

lemma run_memory_loop (maxIter : ℕ) (threshold : ℚ) (qscore : List Char → ℚ)
    (fmt : List Char → List Char → List (List Char) → ResearchBrief)
    (compact : List (List Char) → List Char) (o : GenOracle)
    (topic : List Char) (style_guide : Option (List Char)) :
    (run_blog_pipeline maxIter threshold qscore fmt compact o topic style_guide).memory =
      (reviewLoop maxIter threshold qscore o.review_text o.revise_text maxIter 0
        (preLoopMemory fmt compact o topic style_guide)).1 := rfl

lemma run_approved_loop (maxIter : ℕ) (threshold : ℚ) (qscore : List Char → ℚ)
    (fmt : List Char → List Char → List (List Char) → ResearchBrief)
    (compact : List (List Char) → List Char) (o : GenOracle)
    (topic : List Char) (style_guide : Option (List Char)) :
    (run_blog_pipeline maxIter threshold qscore fmt compact o topic style_guide).approved =
      (reviewLoop maxIter threshold qscore o.review_text o.revise_text maxIter 0
        (preLoopMemory fmt compact o topic style_guide)).2.2 := rfl

lemma preLoopMemory_feedback
    (fmt : List Char → List Char → List (List Char) → ResearchBrief)
    (compact : List (List Char) → List Char) (o : GenOracle)
    (topic : List Char) (style_guide : Option (List Char)) :
    (preLoopMemory fmt compact o topic style_guide).editor_feedback = [] := by
  simp [preLoopMemory, MemoryBank.add_draft, SEOAgent.optimize, MemoryBank.store_seo_data,
    research_preserves_feedback, MemoryBank.init]

/-! ## Claim theorems -/

/-- C1: for any `maxIterations = K ≥ 1`, the Review/Revise loop of the
pipeline controller performs at most `K` Review calls (each Review call
appends exactly one feedback record, so the final feedback count is the
number of Review calls), performs at least one, and always leaves the loop
in an approved state, reaching the final-output stage. -/
theorem C1_review_loop_bounded_termination (K : ℕ) (hK : 1 ≤ K) (threshold : ℚ)
    (qscore : List Char → ℚ)
    (fmt : List Char → List Char → List (List Char) → ResearchBrief)
    (compact : List (List Char) → List Char) (o : GenOracle)
    (topic : List Char) (style_guide : Option (List Char)) :
    1 ≤ (run_blog_pipeline K threshold qscore fmt compact o topic
          style_guide).memory.get_feedback_count ∧
    (run_blog_pipeline K threshold qscore fmt compact o topic
        style_guide).memory.get_feedback_count ≤ K ∧
    (run_blog_pipeline K threshold qscore fmt compact o topic style_guide).approved =
      true := by
  rw [MemoryBank.get_feedback_count, run_memory_loop, run_approved_loop]
  refine ⟨?_, ?_, ?_⟩
  · have h := reviewLoop_feedback_ge K threshold qscore o.review_text o.revise_text K 0
      (preLoopMemory fmt compact o topic style_guide) hK
    rw [preLoopMemory_feedback] at h
    simpa using h
  · have h := reviewLoop_feedback_le K threshold qscore o.review_text o.revise_text K 0
      (preLoopMemory fmt compact o topic style_guide)
    rw [preLoopMemory_feedback] at h
    simpa using h
  · exact reviewLoop_approved K threshold qscore o.review_text o.revise_text K 0 _
      (by rw [preLoopMemory_feedback]; rfl) (by omega) hK

/-- C1 witness: a concrete instantiation at `K = 3` with an oracle on which
every generation call fails. -/
theorem C1_witness :
    1 ≤ (run_blog_pipeline 3 7 calculate_quality_score
          (fun t f s => ⟨t, f, [], s, []⟩) joinLines (allFailOracle (S "api down"))
          (S "Benefits of Remote Work") none).memory.get_feedback_count ∧
    (run_blog_pipeline 3 7 calculate_quality_score
        (fun t f s => ⟨t, f, [], s, []⟩) joinLines (allFailOracle (S "api down"))
        (S "Benefits of Remote Work") none).memory.get_feedback_count ≤ 3 ∧
    (run_blog_pipeline 3 7 calculate_quality_score
        (fun t f s => ⟨t, f, [], s, []⟩) joinLines (allFailOracle (S "api down"))
        (S "Benefits of Remote Work") none).approved = true :=
  C1_review_loop_bounded_termination 3 (by norm_num) 7 calculate_quality_score
    (fun t f s => ⟨t, f, [], s, []⟩) joinLines (allFailOracle (S "api down"))
    (S "Benefits of Remote Work") none

/-- C2: a Review call approves exactly when the average of the heuristic
score and the LLM-derived score reaches the threshold, or the iteration
counter has reached the maximum; and when the loop starts with an empty
feedback history and full budget, it always ends approved — even when every
review scores below threshold, the final one is forced-approved. -/
theorem C2_review_approval_rule :
    (∀ (maxIter : ℕ) (threshold : ℚ) (qscore : List Char → ℚ)
        (gen : Except (List Char) (List Char)) (draft : List Char) (memory : MemoryBank),
      (EditorAgent.review maxIter threshold qscore gen draft memory).1 = true ↔
        (threshold ≤ (qscore draft + (EditorAgent.detailed_review gen).score) / 2 ∨
          maxIter ≤ memory.get_feedback_count + 1)) ∧
    (∀ (K : ℕ) (threshold : ℚ) (qscore : List Char → ℚ)
        (gR gV : ℕ → Except (List Char) (List Char)) (memory : MemoryBank),
      1 ≤ K → memory.editor_feedback = [] →
      (reviewLoop K threshold qscore gR gV K 0 memory).2.2 = true) := by
  constructor
  · exact review_approved_iff
  · intro K threshold qscore gR gV memory hK h0
    exact reviewLoop_approved K threshold qscore gR gV K 0 memory (by rw [h0]; rfl)
      (by omega) hK

/-- C2 witness: concrete instantiation; in the loop instance every review
scores below threshold (the generation call fails, giving LLM score 6.0 and
heuristic 0-word score 5.0, average below 7), yet the run ends approved. -/
theorem C2_witness :
    ((EditorAgent.review 3 7 calculate_quality_score (Except.error (S "boom")) (S "d")
        (MemoryBank.init [])).1 = true ↔
      ((7 : ℚ) ≤ (calculate_quality_score (S "d") +
          (EditorAgent.detailed_review (Except.error (S "boom"))).score) / 2 ∨
        3 ≤ (MemoryBank.init []).get_feedback_count + 1)) ∧
    (reviewLoop 1 7 calculate_quality_score (fun _ => Except.error (S "boom"))
      (fun _ => Except.error (S "boom")) 1 0 (MemoryBank.init [])).2.2 = true :=
  ⟨C2_review_approval_rule.1 3 7 calculate_quality_score (Except.error (S "boom"))
      (S "d") (MemoryBank.init []),
    C2_review_approval_rule.2 1 7 calculate_quality_score
      (fun _ => Except.error (S "boom")) (fun _ => Except.error (S "boom"))
      (MemoryBank.init []) (by norm_num) rfl⟩

/-- C3: the drafts and feedback histories are append-only across the review
loop — the state after the loop extends the state before it, so lengths are
non-decreasing and stored elements are never removed, mutated or reordered —
and after a full run the feedback history holds at most `K + 1` records. -/
theorem C3_history_append_only :
    (∀ (maxIter : ℕ) (threshold : ℚ) (qscore : List Char → ℚ)
        (gR gV : ℕ → Except (List Char) (List Char)) (fuel it : ℕ) (memory : MemoryBank),
      ∃ ds fs,
        (reviewLoop maxIter threshold qscore gR gV fuel it memory).1.drafts =
          memory.drafts ++ ds ∧
        (reviewLoop maxIter threshold qscore gR gV fuel it memory).1.editor_feedback =
          memory.editor_feedback ++ fs) ∧
    (∀ (K : ℕ) (threshold : ℚ) (qscore : List Char → ℚ)
        (fmt : List Char → List Char → List (List Char) → ResearchBrief)
        (compact : List (List Char) → List Char) (o : GenOracle)
        (topic : List Char) (style_guide : Option (List Char)),
      (run_blog_pipeline K threshold qscore fmt compact o topic
          style_guide).memory.get_feedback_count ≤ K + 1) := by
  constructor
  · exact fun maxIter threshold qscore gR gV fuel it memory =>
      reviewLoop_append_only maxIter threshold qscore gR gV fuel it memory
  · intro K threshold qscore fmt compact o topic style_guide
    rw [MemoryBank.get_feedback_count, run_memory_loop]
    have h := reviewLoop_feedback_le K threshold qscore o.review_text o.revise_text K 0
      (preLoopMemory fmt compact o topic style_guide)
    rw [preLoopMemory_feedback] at h
    simp at h
    omega

/-- C4: the feedback parser is total and returns the default record — score
5.0 and empty issues, suggestions and strengths — on any input none of whose
(stripped) lines starts with `SCORE:` or equals a recognized section header. -/
theorem C4_parser_tolerance (input : List Char)
    (h : ∀ l ∈ splitLines input, startsWithL (S "SCORE:") (pyStrip l) = false ∧
      pyStrip l ≠ S "ISSUES:" ∧ pyStrip l ≠ S "SUGGESTIONS:" ∧
      pyStrip l ≠ S "STRENGTHS:") :
    EditorAgent.parse_review input = defaultFeedback := by
  unfold EditorAgent.parse_review
  rw [parse_fold_inert (splitLines input) defaultFeedback h]

/-- C4 witness: the concrete input from the spec, with the hypothesis
discharged by computation. -/
theorem C4_witness :
    EditorAgent.parse_review (S "no recognizable sections") = defaultFeedback :=
  C4_parser_tolerance (S "no recognizable sections") (by decide)

/-- C5: the parser extracts the first numeric token of a `SCORE:` line,
tolerating a trailing `/10`, and accumulates dash items into the most
recently opened section: on the spec input the score is 8.5 and the issues
list is exactly `["too short"]` (with the other sections untouched). -/
theorem C5_parser_numeric_extraction :
    (EditorAgent.parse_review (S "SCORE: 8.5/10\nISSUES:\n- too short")).score = 17/2 ∧
    (EditorAgent.parse_review (S "SCORE: 8.5/10\nISSUES:\n- too short")).issues =
      [S "too short"] ∧
    (EditorAgent.parse_review (S "SCORE: 8.5/10\nISSUES:\n- too short")).suggestions = [] ∧
    (EditorAgent.parse_review (S "SCORE: 8.5/10\nISSUES:\n- too short")).strengths = [] := by
  refine ⟨?_, by decide, by decide, by decide⟩
  simp +decide [EditorAgent.parse_review, parseReviewStep, splitLines, pyStrip,
    removeScoreTag, firstNumTok, takeNumTok, parseFloatTok, digitsToNat, digitVal,
    defaultFeedback, appendItem, S, startsWithL, isSpaceCh]
  norm_num

/-- C8: when the generation call of the Draft stage fails during a revision,
the Writer returns the unmodified previous draft (the latest draft already
in memory), and appending that result leaves the latest-draft content
unchanged; when it fails on the first draft, the Writer returns the
placeholder draft containing the error. -/
theorem C8_draft_failure_policy :
    (∀ (memory : MemoryBank) (e : List Char),
      WriterAgent.revise_draft memory (Except.error e) = memory.get_latest_draft) ∧
    (∀ (memory : MemoryBank) (fb : Feedback) (e : List Char),
      WriterAgent.write_draft memory (some fb) (Except.error e) =
        memory.get_latest_draft) ∧
    (∀ (memory : MemoryBank) (fb : Feedback) (e : List Char),
      (memory.add_draft
          (WriterAgent.write_draft memory (some fb) (Except.error e))).get_latest_draft =
        memory.get_latest_draft) ∧
    (∀ (r : ResearchBrief) (e : List Char),
      WriterAgent.create_initial_draft (some r) (Except.error e) =
        S "# " ++ r.topic ++ S "\n\n[Draft generation failed: " ++ e ++ S "]") := by
  refine ⟨fun memory e => rfl, fun memory fb e => rfl, fun memory fb e => ?_,
    fun r e => rfl⟩
  simp [MemoryBank.add_draft, MemoryBank.get_latest_draft, WriterAgent.write_draft,
    WriterAgent.revise_draft]

/-- C10: the memory accessors are total on the empty state: with no drafts,
`get_latest_draft` returns the empty string, and with no feedback records,
`get_latest_feedback` returns the empty record (modelled as `none`) — no
out-of-bounds access is possible. -/
theorem C10_empty_accessors (memory : MemoryBank) :
    (memory.drafts = [] → memory.get_latest_draft = S "") ∧
    (memory.editor_feedback = [] → memory.get_latest_feedback = none) := by
  refine ⟨fun h => ?_, fun h => ?_⟩
  · rw [MemoryBank.get_latest_draft, h]
    rfl
  · rw [MemoryBank.get_latest_feedback, h]
    rfl

/-- C10 witness: the freshly initialized memory bank. -/
theorem C10_witness :
    (MemoryBank.init (S "guide")).get_latest_draft = S "" ∧
    (MemoryBank.init (S "guide")).get_latest_feedback = none :=
  ⟨(C10_empty_accessors (MemoryBank.init (S "guide"))).1 rfl,
    (C10_empty_accessors (MemoryBank.init (S "guide"))).2 rfl⟩

/-- Does `pat` occur as a contiguous segment of `l`? (Python `in`). -/
def containsSeg (pat : List Char) : List Char → Bool
  | [] => pat.isEmpty
  | c :: cs => startsWithL pat (c :: cs) || containsSeg pat cs

lemma run_final_article (maxIter : ℕ) (threshold : ℚ) (qscore : List Char → ℚ)
    (fmt : List Char → List Char → List (List Char) → ResearchBrief)
    (compact : List (List Char) → List Char) (o : GenOracle)
    (topic : List Char) (style_guide : Option (List Char)) :
    ∃ d md, (run_blog_pipeline maxIter threshold qscore fmt compact o topic
      style_guide).final_article = format_output_article d md :=
  ⟨_, _, rfl⟩

lemma format_output_article_ne_nil (draft : List Char) (metadata : ArticleMetadata) :
    format_output_article draft metadata ≠ [] := by
  intro h
  rw [format_output_article] at h
  simp only [List.append_assoc, List.append_eq_nil] at h
  exact absurd h.1 (by decide)

/-- C6 counterexample: the claim says the placeholder ResearchBrief produced
after both generation calls fail carries the failure reason in `findings`;
in the code (src/agents/researcher.py:136-142) the placeholder text is a
fixed manual-input note and the exception message is discarded — here the
failure reason `quota exceeded` does not occur in the findings. -/
theorem C6_counterexample :
    containsSeg (S "quota exceeded")
      ((ResearcherAgent.research (fun t f s => ⟨t, f, [], s, []⟩) joinLines
          (S "Remote Work") (Except.error (S "quota exceeded"))
          (Except.error (S "quota exceeded")) (MemoryBank.init [])).1.findings) =
      false := by decide

/-- C6 (amended): when both the grounded and the fallback generation calls
fail, Research returns the non-null placeholder brief whose `findings` names
the topic and asks for manual input (the failure reason is not embedded),
stores it in memory and continues; and with an oracle on which every
generation call fails the pipeline still completes with a non-empty
artifact. -/
theorem C6_research_never_aborts :
    (∀ (fmt : List Char → List Char → List (List Char) → ResearchBrief)
        (compact : List (List Char) → List Char) (topic e1 e2 : List Char)
        (memory : MemoryBank),
      ResearcherAgent.research fmt compact topic (Except.error e1) (Except.error e2)
          memory =
        ({ topic := topic,
           findings := S "Research on " ++ topic ++ S " - please provide manual input",
           key_points := [], sources := [], timestamp := S "2025-11-29" },
         memory.store_research
           { topic := topic,
             findings := S "Research on " ++ topic ++ S " - please provide manual input",
             key_points := [], sources := [], timestamp := S "2025-11-29" })) ∧
    (∀ (fmt : List Char → List Char → List (List Char) → ResearchBrief)
        (compact : List (List Char) → List Char) (topic e1 e2 : List Char)
        (memory : MemoryBank),
      (ResearcherAgent.research fmt compact topic (Except.error e1) (Except.error e2)
          memory).1.findings ≠ []) ∧
    (∀ (K : ℕ) (threshold : ℚ) (qscore : List Char → ℚ)
        (fmt : List Char → List Char → List (List Char) → ResearchBrief)
        (compact : List (List Char) → List Char) (e topic : List Char)
        (style_guide : Option (List Char)),
      (run_blog_pipeline K threshold qscore fmt compact (allFailOracle e) topic
          style_guide).final_article ≠ []) := by
  refine ⟨fun fmt compact topic e1 e2 memory => rfl,
    fun fmt compact topic e1 e2 memory => ?_,
    fun K threshold qscore fmt compact e topic style_guide => ?_⟩
  · show S "Research on " ++ topic ++ S " - please provide manual input" ≠ []
    intro h
    simp only [List.append_assoc, List.append_eq_nil] at h
    exact absurd h.1 (by decide)
  · obtain ⟨d, md, hh⟩ := run_final_article K threshold qscore fmt compact
      (allFailOracle e) topic style_guide
    rw [hh]
    exact format_output_article_ne_nil d md

/-- A short structured draft: a header, several paragraphs and a bullet item
(6 words, header present, 4 paragraphs, bullet present). -/
def exampleStructuredDraft : List Char := S "## A\n\nB\n\n- C\n\nD"

lemma qscore_exampleStructuredDraft :
    calculate_quality_score exampleStructuredDraft = 8 := by
  have h1 : wordCount exampleStructuredDraft = 6 := by decide
  have h2 : hasHeaderLine exampleStructuredDraft = true := by decide
  have h3 : paragraphCount exampleStructuredDraft = 4 := by decide
  have h4 : hasBulletLine exampleStructuredDraft = true := by decide
  rw [calculate_quality_score, h1, h2, h3, h4]
  norm_num

/-- C7 counterexample: a failed review does not always drive another
revision even when the iteration budget is not exhausted: on a draft whose
heuristic score is 8.0, the combined score is (8.0 + 6.0)/2 = 7.0, which
meets the default threshold, so the first review is approved although its
generation call failed and the budget (3) is far from exhausted. -/
theorem C7_counterexample :
    (EditorAgent.review MAX_EDITOR_ITERATIONS QUALITY_THRESHOLD calculate_quality_score
        (Except.error (S "API timeout")) exampleStructuredDraft (MemoryBank.init [])).1 =
      true ∧
    (MemoryBank.init []).get_feedback_count + 1 < MAX_EDITOR_ITERATIONS := by
  refine ⟨?_, by decide⟩
  rw [review_approved_iff]
  left
  have hd : (EditorAgent.detailed_review (Except.error (S "API timeout"))).score = 6 := rfl
  rw [qscore_exampleStructuredDraft, hd, QUALITY_THRESHOLD]
  norm_num

/-- C7 (amended): on a failed generation call the Review stage synthesizes
a FeedbackRecord with score 6.0, a single issue naming the failure and no
strengths; with the default configuration the failed review drives one more
revision exactly when the combined score (heuristic + 6.0)/2 stays below the
threshold 7.0 — that is, when the heuristic score is below 8.0 — and the
iteration budget is not exhausted. -/
theorem C7_review_failure_fallback :
    ∀ e : List Char,
      (EditorAgent.detailed_review (Except.error e) =
        { score := 6, issues := [S "Review error: " ++ e],
          suggestions := [S "Manual review recommended"], strengths := [],
          iteration := 0 }) ∧
      ∀ (qscore : List Char → ℚ) (draft : List Char) (memory : MemoryBank),
        ((EditorAgent.review MAX_EDITOR_ITERATIONS QUALITY_THRESHOLD qscore
            (Except.error e) draft memory).1 = false ↔
          ((qscore draft + 6) / 2 < 7 ∧ memory.get_feedback_count + 1 < 3)) := by
  intro e
  refine ⟨rfl, fun qscore draft memory => ?_⟩
  rw [show MAX_EDITOR_ITERATIONS = 3 from rfl, show QUALITY_THRESHOLD = 7 from rfl]
  have hiff := review_approved_iff 3 7 qscore (Except.error e) draft memory
  have hd : (EditorAgent.detailed_review (Except.error e)).score = 6 := rfl
  rw [hd] at hiff
  constructor
  · intro h
    have h2 : ¬ ((7 : ℚ) ≤ (qscore draft + 6) / 2 ∨ 3 ≤ memory.get_feedback_count + 1) := by
      intro hc
      have h3 := hiff.2 hc
      rw [h] at h3
      exact absurd h3 (by simp)
    rw [not_or, not_le, not_le] at h2
    exact ⟨h2.1, h2.2⟩
  · intro hc
    cases hcase : (EditorAgent.review 3 7 qscore (Except.error e) draft memory).1 with
    | false => rfl
    | true =>
      rcases hiff.1 hcase with h | h
      · exact absurd h (by linarith [hc.1])
      · exact absurd h (by omega)

lemma countWordsAux_append_space (c : Char) (hc : isSpaceCh c = true) :
    ∀ (a b : List Char) (w : Bool),
      countWordsAux (a ++ c :: b) w = countWordsAux a w + countWordsAux b false := by
  intro a
  induction a with
  | nil => intro b w; simp [countWordsAux, hc]
  | cons x xs ih =>
    intro b w
    simp only [List.cons_append, countWordsAux]
    by_cases hx : isSpaceCh x
    · simp [hx, ih]
    · simp [hx, ih]
      omega

lemma wordCount_joinLines : ∀ ls : List (List Char),
    countWordsAux (joinLines ls) false = (ls.map wordCount).sum := by
  intro ls
  induction ls with
  | nil => rfl
  | cons l ls ih =>
    cases ls with
    | nil => simp [joinLines, wordCount]
    | cons l2 ls2 =>
      simp only [joinLines]
      rw [countWordsAux_append_space '\n' (by decide)]
      simp [ih, wordCount]

lemma splitLines_ne_nil (t : List Char) : splitLines t ≠ [] := by
  cases t with
  | nil => simp [splitLines]
  | cons c cs =>
    rw [splitLines]
    split
    · simp
    · split <;> simp

lemma joinLines_splitLines : ∀ t : List Char, joinLines (splitLines t) = t := by
  intro t
  induction t with
  | nil => rfl
  | cons c cs ih =>
    rw [splitLines]
    by_cases hc : c = '\n'
    · subst hc
      simp only [if_pos rfl]
      obtain ⟨l, ls, he⟩ : ∃ l ls, splitLines cs = l :: ls := by
        cases h : splitLines cs with
        | nil => exact absurd h (splitLines_ne_nil cs)
        | cons l ls => exact ⟨l, ls, rfl⟩
      rw [he]
      rw [he] at ih
      show [] ++ '\n' :: joinLines (l :: ls) = '\n' :: cs
      simp [ih]
    · rw [if_neg hc]
      obtain ⟨l, ls, he⟩ : ∃ l ls, splitLines cs = l :: ls := by
        cases h : splitLines cs with
        | nil => exact absurd h (splitLines_ne_nil cs)
        | cons l ls => exact ⟨l, ls, rfl⟩
      rw [he]
      rw [he] at ih
      cases ls with
      | nil =>
        show joinLines [c :: l] = c :: cs
        have h2 : joinLines [l] = cs := ih
        simp only [joinLines] at h2 ⊢
        rw [h2]
      | cons l2 ls2 =>
        show joinLines ((c :: l) :: l2 :: ls2) = c :: cs
        have h2 : joinLines (l :: l2 :: ls2) = cs := ih
        simp only [joinLines] at h2 ⊢
        rw [← h2]
        simp

lemma wordCount_eq_sum_lines (t : List Char) :
    wordCount t = ((splitLines t).map wordCount).sum := by
  conv_lhs => rw [wordCount, ← joinLines_splitLines t]
  exact wordCount_joinLines (splitLines t)

lemma sum_map_filter_le (p : List Char → Bool) (ls : List (List Char)) :
    (((ls.filter p).map wordCount).sum : ℕ) ≤ (ls.map wordCount).sum := by
  induction ls with
  | nil => simp
  | cons l ls ih =>
    by_cases h : p l
    · simp [List.filter_cons, h]
      omega
    · simp [List.filter_cons, h]
      omega

lemma wordCount_stripStructure_le (t : List Char) :
    wordCount (stripStructure t) ≤ wordCount t := by
  rw [wordCount_eq_sum_lines t, stripStructure, wordCount]
  rw [wordCount_joinLines]
  exact sum_map_filter_le _ _

lemma splitLines_no_newline : ∀ t : List Char, ∀ l ∈ splitLines t, '\n' ∉ l := by
  intro t
  induction t with
  | nil =>
    intro l hl
    simp [splitLines] at hl
    simp [hl]
  | cons c cs ih =>
    intro l hl
    rw [splitLines] at hl
    by_cases hc : c = '\n'
    · rw [if_pos hc] at hl
      rcases List.mem_cons.mp hl with h | h
      · simp [h]
      · exact ih l h
    · rw [if_neg hc] at hl
      obtain ⟨hd, tl, he⟩ : ∃ hd tl, splitLines cs = hd :: tl := by
        cases h : splitLines cs with
        | nil => exact absurd h (splitLines_ne_nil cs)
        | cons x xs => exact ⟨x, xs, rfl⟩
      rw [he] at hl
      rcases List.mem_cons.mp hl with h | h
      · subst h
        intro hmem
        rcases List.mem_cons.mp hmem with h2 | h2
        · exact hc h2.symm
        · exact ih hd (he ▸ List.mem_cons_self _ _) h2
      · exact ih l (he ▸ List.mem_cons_of_mem _ h)

lemma splitLines_of_no_newline : ∀ l : List Char, '\n' ∉ l → splitLines l = [l] := by
  intro l
  induction l with
  | nil => intro _; rfl
  | cons c cs ih =>
    intro h
    have hc : c ≠ '\n' := fun hh => h (hh ▸ List.mem_cons_self _ _)
    have hcs : '\n' ∉ cs := fun hh => h (List.mem_cons_of_mem _ hh)
    rw [splitLines, if_neg hc, ih hcs]

lemma splitLines_append_newline : ∀ (a b : List Char), '\n' ∉ a →
    splitLines (a ++ '\n' :: b) = a :: splitLines b := by
  intro a
  induction a with
  | nil => intro b _; rw [List.nil_append, splitLines, if_pos rfl]
  | cons c cs ih =>
    intro b h
    have hc : c ≠ '\n' := fun hh => h (hh ▸ List.mem_cons_self _ _)
    have hcs : '\n' ∉ cs := fun hh => h (List.mem_cons_of_mem _ hh)
    rw [List.cons_append, splitLines, if_neg hc, ih b hcs]

lemma splitLines_joinLines : ∀ ls : List (List Char), ls ≠ [] →
    (∀ l ∈ ls, '\n' ∉ l) → splitLines (joinLines ls) = ls := by
  intro ls
  induction ls with
  | nil => intro h _; exact absurd rfl h
  | cons l ls ih =>
    intro _ hno
    cases ls with
    | nil =>
      show splitLines (joinLines [l]) = [l]
      simp only [joinLines]
      exact splitLines_of_no_newline l (hno l (List.mem_cons_self _ _))
    | cons l2 ls2 =>
      show splitLines (joinLines (l :: l2 :: ls2)) = l :: l2 :: ls2
      simp only [joinLines]
      rw [splitLines_append_newline l _ (hno l (List.mem_cons_self _ _))]
      rw [ih (by simp) (fun x hx => hno x (List.mem_cons_of_mem _ hx))]

lemma hasHeaderLine_stripStructure (t : List Char) :
    hasHeaderLine (stripStructure t) = false := by
  rw [hasHeaderLine, stripStructure]
  cases hke : (splitLines t).filter (fun l => !startsWithL (S "##") l && !l.isEmpty) with
  | nil => decide
  | cons x xs =>
    have hmem : ∀ l ∈ x :: xs, l ∈ splitLines t := by
      rw [← hke]; intro l hl; exact (List.mem_filter.mp hl).1
    have hno : ∀ l ∈ x :: xs, '\n' ∉ l := fun l hl => splitLines_no_newline t l (hmem l hl)
    have hp : ∀ l ∈ x :: xs, (!startsWithL (S "##") l && !l.isEmpty) = true := by
      rw [← hke]; intro l hl; exact (List.mem_filter.mp hl).2
    rw [splitLines_joinLines _ (by simp) hno]
    rw [List.any_eq_false]
    intro l hl
    have h2 := hp l hl
    simp only [Bool.and_eq_true, Bool.not_eq_true'] at h2
    simp [h2.1]

lemma hasBulletLine_stripStructure (t : List Char)
    (h : hasBulletLine (stripStructure t) = true) : hasBulletLine t = true := by
  rw [hasBulletLine, stripStructure] at h
  cases hke : (splitLines t).filter (fun l => !startsWithL (S "##") l && !l.isEmpty) with
  | nil => rw [hke] at h; exact absurd h (by decide)
  | cons x xs =>
    have hmem : ∀ l ∈ x :: xs, l ∈ splitLines t := by
      rw [← hke]; intro l hl; exact (List.mem_filter.mp hl).1
    have hno : ∀ l ∈ x :: xs, '\n' ∉ l := fun l hl => splitLines_no_newline t l (hmem l hl)
    rw [hke, splitLines_joinLines _ (by simp) hno] at h
    rw [List.any_eq_true] at h
    obtain ⟨l, hl, hbul⟩ := h
    rw [hasBulletLine, List.any_eq_true]
    exact ⟨l, hmem l hl, hbul⟩

lemma countParaAux_true_eq_zero : ∀ ls : List (List Char),
    (∀ l ∈ ls, l.isEmpty = false) → countParaAux ls true = 0 := by
  intro ls
  induction ls with
  | nil => intro _; rfl
  | cons l ls ih =>
    intro h
    rw [countParaAux]
    rw [h l (List.mem_cons_self _ _)]
    simp only [Bool.false_eq_true, if_false, if_pos rfl]
    simpa using ih (fun x hx => h x (List.mem_cons_of_mem _ hx))

lemma countParaAux_le_one : ∀ ls : List (List Char),
    (∀ l ∈ ls, l.isEmpty = false) → ∀ b, countParaAux ls b ≤ 1 := by
  intro ls h b
  cases ls with
  | nil => simp [countParaAux]
  | cons l ls =>
    rw [countParaAux, h l (List.mem_cons_self _ _)]
    simp only [Bool.false_eq_true, if_false]
    rw [countParaAux_true_eq_zero ls (fun x hx => h x (List.mem_cons_of_mem _ hx))]
    split_ifs <;> omega

lemma paragraphCount_stripStructure_le_one (t : List Char) :
    paragraphCount (stripStructure t) ≤ 1 := by
  rw [paragraphCount, stripStructure]
  cases hke : (splitLines t).filter (fun l => !startsWithL (S "##") l && !l.isEmpty) with
  | nil => decide
  | cons x xs =>
    have hmem : ∀ l ∈ x :: xs, l ∈ splitLines t := by
      rw [← hke]; intro l hl; exact (List.mem_filter.mp hl).1
    have hno : ∀ l ∈ x :: xs, '\n' ∉ l := fun l hl => splitLines_no_newline t l (hmem l hl)
    have hp : ∀ l ∈ x :: xs, l.isEmpty = false := by
      rw [← hke]
      intro l hl
      have h2 := (List.mem_filter.mp hl).2
      simp only [Bool.and_eq_true, Bool.not_eq_true'] at h2
      exact h2.2
    rw [splitLines_joinLines _ (by simp) hno]
    exact countParaAux_le_one _ hp false

lemma wordTier_mono (m n : ℕ) (h : m ≤ n) :
    (if 1200 ≤ m then (2:ℚ) else if 600 ≤ m then 1 else 0) ≤
      (if 1200 ≤ n then (2:ℚ) else if 600 ≤ n then 1 else 0) := by
  split_ifs <;> try norm_num
  all_goals omega

theorem C9_quality_scorer_contract :
    (∀ text : List Char,
      0 ≤ calculate_quality_score text ∧ calculate_quality_score text ≤ 10) ∧
    (∀ text : List Char,
      calculate_quality_score (stripStructure text) ≤ calculate_quality_score text) := by
  constructor
  · intro text
    rw [calculate_quality_score]
    refine ⟨le_min (by norm_num) ?_, min_le_left _ _⟩
    have h1 : (0:ℚ) ≤ (if 1200 ≤ wordCount text then (2:ℚ) else if 600 ≤ wordCount text then 1 else 0) := by
      split_ifs <;> norm_num
    have h2 : (0:ℚ) ≤ (if hasHeaderLine text = true then (3:ℚ)/2 else 0) := by
      split_ifs <;> norm_num
    have h3 : (0:ℚ) ≤ (if 3 ≤ paragraphCount text then (1:ℚ) else 0) := by
      split_ifs <;> norm_num
    have h4 : (0:ℚ) ≤ (if hasBulletLine text = true then (1:ℚ)/2 else 0) := by
      split_ifs <;> norm_num
    linarith
  · intro text
    rw [calculate_quality_score, calculate_quality_score]
    apply min_le_min le_rfl
    have hw := wordTier_mono _ _ (wordCount_stripStructure_le text)
    have hh := hasHeaderLine_stripStructure text
    have hpar := paragraphCount_stripStructure_le_one text
    rw [hh]
    have h2 : (if 3 ≤ paragraphCount (stripStructure text) then (1:ℚ) else 0) = 0 := by
      rw [if_neg]; omega
    rw [h2]
    have hb : (if hasBulletLine (stripStructure text) = true then (1:ℚ)/2 else 0) ≤
        (if hasBulletLine text = true then (1:ℚ)/2 else 0) := by
      by_cases hbl : hasBulletLine (stripStructure text) = true
      · rw [if_pos hbl, if_pos (hasBulletLine_stripStructure text hbl)]
      · rw [if_neg hbl]; split_ifs <;> norm_num
    have h3 : (0:ℚ) ≤ (if hasHeaderLine text = true then (3:ℚ)/2 else 0) := by
      split_ifs <;> norm_num
    have h4 : (0:ℚ) ≤ (if 3 ≤ paragraphCount text then (1:ℚ) else 0) := by
      split_ifs <;> norm_num
    simp only [Bool.false_eq_true, if_false]
    linarith
